import Mathlib

/-!
Shallow embedding of the FlipMan simulation loop (src/main.cpp).

Real-number quantities of the program (SDL float coordinates, velocities,
angles, delta times) are modelled as exact rationals; float literals of the
source such as 0.05f are taken at their decimal value (1/20).  Tick counts
(Uint64 from SDL_GetTicks) are modelled as naturals, with the monotonic
tick-source assumption of the spec making Nat subtraction agree with the
unsigned subtraction of the source.

Each definition below mirrors one region of src/main.cpp; the line numbers
in the comments refer to that file.
-/

namespace FlipMan

/-- SDL_FRect: an axis-aligned rectangle with float fields x, y, w, h. -/
structure FRect where
  x : ℚ
  y : ℚ
  w : ℚ
  h : ℚ
deriving DecidableEq, Repr

/-- SDL_HasRectIntersectionFloat, via its clamped-interval implementation:
the result is true iff both axis projections overlap with positive extent
(the clamped interval test `Amax <= Amin -> false` on each axis; rectangles
of non-positive extent never intersect anything under this test). -/
def hasRectIntersectionFloat (a b : FRect) : Bool :=
  decide (max a.x b.x < min (a.x + a.w) (b.x + b.w)) &&
  decide (max a.y b.y < min (a.y + a.h) (b.y + b.h))

/-- gravity constant, main.cpp line 70. -/
def gravity : ℚ := 900

/-- moveSpeed constant, main.cpp line 73. -/
def moveSpeed : ℚ := 240

/-- angleSpeed constant (degrees per second), main.cpp line 80. -/
def angleSpeed : ℚ := 720

/-- screen width used by the horizontal clamp and the wall loops. -/
def screenW : ℚ := 800

/-- SDLK_ESCAPE key code. -/
def SDLK_ESCAPE : Nat := 27

/-- SDLK_SPACE key code. -/
def SDLK_SPACE : Nat := 32

/-- The player body as the collision loop sees it: the player rectangle and
the two velocity components vx, vy (main.cpp lines 65-68). -/
structure Body where
  rect : FRect
  vx : ℚ
  vy : ℚ
deriving DecidableEq, Repr

/-- One iteration of the collision loop body for a single wall
(main.cpp lines 172-209), acting on the current player/vx/vy with the
pre-integration position (oldX, oldY) fixed for the whole frame. -/
def resolveWall (oldX oldY : ℚ) (b : Body) (w : FRect) : Body :=
  if hasRectIntersectionFloat b.rect w then
    let wallTop := w.y
    let wallBottom := w.y + w.h
    let wallLeft := w.x
    let wallRight := w.x + w.w
    let overlapLeft := (b.rect.x + b.rect.w) - wallLeft
    let overlapRight := wallRight - b.rect.x
    let overlapTop := (b.rect.y + b.rect.h) - wallTop
    let overlapBottom := wallBottom - b.rect.y
    let minHoriz := min overlapLeft overlapRight
    let minVert := min overlapTop overlapBottom
    if minVert < minHoriz then
      if b.rect.y > oldY then
        { b with rect := { b.rect with y := wallTop - b.rect.h }, vy := 0 }
      else if b.rect.y < oldY then
        { b with rect := { b.rect with y := wallBottom }, vy := 0 }
      else
        b
    else
      let b1 :=
        if b.rect.x > oldX then
          { b with rect := { b.rect with x := wallLeft - b.rect.w } }
        else if b.rect.x < oldX then
          { b with rect := { b.rect with x := wallRight } }
        else
          b
      { b1 with vx := 0 }
  else
    b

/-- The whole collision loop: the walls are processed sequentially in
wall-list order, each resolution seeing the position corrected by the
previous ones (main.cpp lines 172-210). -/
def resolveWalls (oldX oldY : ℚ) (b : Body) (walls : List FRect) : Body :=
  walls.foldl (fun acc w => resolveWall oldX oldY acc w) b

/-- Variant of resolveWall with the unconditional `vx = 0.f` assignment of
the horizontal branch (main.cpp line 207) removed; used to compare the
observable behaviour of the program with and without that assignment. -/
def resolveWallKeepVx (oldX oldY : ℚ) (b : Body) (w : FRect) : Body :=
  if hasRectIntersectionFloat b.rect w then
    let wallTop := w.y
    let wallBottom := w.y + w.h
    let wallLeft := w.x
    let wallRight := w.x + w.w
    let overlapLeft := (b.rect.x + b.rect.w) - wallLeft
    let overlapRight := wallRight - b.rect.x
    let overlapTop := (b.rect.y + b.rect.h) - wallTop
    let overlapBottom := wallBottom - b.rect.y
    let minHoriz := min overlapLeft overlapRight
    let minVert := min overlapTop overlapBottom
    if minVert < minHoriz then
      if b.rect.y > oldY then
        { b with rect := { b.rect with y := wallTop - b.rect.h }, vy := 0 }
      else if b.rect.y < oldY then
        { b with rect := { b.rect with y := wallBottom }, vy := 0 }
      else
        b
    else
      if b.rect.x > oldX then
        { b with rect := { b.rect with x := wallLeft - b.rect.w } }
      else if b.rect.x < oldX then
        { b with rect := { b.rect with x := wallRight } }
      else
        b
  else
    b

/-- Collision loop of the vx-keeping variant. -/
def resolveWallsKeepVx (oldX oldY : ℚ) (b : Body) (walls : List FRect) : Body :=
  walls.foldl (fun acc w => resolveWallKeepVx oldX oldY acc w) b

/-- The rotation animation step (main.cpp lines 151-158): move angle toward
target by angleSpeed * dt, clamping exactly onto the target instead of
crossing it. -/
def animateAngle (angle target dt : ℚ) : ℚ :=
  if angle < target then
    let a := angle + angleSpeed * dt
    if a > target then target else a
  else if angle > target then
    let a := angle - angleSpeed * dt
    if a < target then target else a
  else
    angle

/-- The clock (main.cpp lines 144-149): dt in seconds from the tick delta,
clamped to at most 0.05 if the frame spikes. -/
def computeDt (lastTicks nowTicks : Nat) : ℚ :=
  let dt : ℚ := ((nowTicks - lastTicks : Nat) : ℚ) / 1000
  if dt > 1/20 then 1/20 else dt

/-- Per-frame keyboard snapshot for the four movement scancodes
(main.cpp lines 137-141). -/
structure Keyboard where
  a : Bool
  left : Bool
  d : Bool
  right : Bool
deriving DecidableEq, Repr

/-- The per-frame vx computation (main.cpp lines 139-141): vx is reset to 0
and then written by each pressed direction in check order, so right wins
when both directions are held. -/
def computeVx (kb : Keyboard) : ℚ :=
  let v : ℚ := 0
  let v := if kb.a || kb.left then -moveSpeed else v
  let v := if kb.d || kb.right then moveSpeed else v
  v

/-- An SDL event as the poll loop distinguishes them (main.cpp lines
110-135).  keyDown carries the key code, the down flag, and the key-repeat
flag; the source never inspects the repeat flag. -/
inductive Event where
  | quit : Event
  | keyDown (key : Nat) (down : Bool) (isRepeat : Bool) : Event
  | keyUp (key : Nat) (down : Bool) : Event
  | other : Event
deriving DecidableEq, Repr

/-- The loop-local state of the simulation (main.cpp lines 65-104). -/
structure GameState where
  player : FRect
  vx : ℚ
  vy : ℚ
  gravityDir : ℚ
  playerAngle : ℚ
  targetAngle : ℚ
  lastTicks : Nat
  running : Bool
  walls : List FRect
deriving DecidableEq, Repr

/-- The gravity-flip transition on a space key-down event (main.cpp lines
118-133): negate gravityDir, zero vy, recompute targetAngle from the new
direction. -/
def applyFlip (s : GameState) : GameState :=
  let d := s.gravityDir * (-1)
  { s with gravityDir := d, vy := 0,
           targetAngle := if d > 0 then (0 : ℚ) else 180 }

/-- Handling of a single polled event (main.cpp lines 111-135). -/
def processEvent (s : GameState) (e : Event) : GameState :=
  match e with
  | Event.quit => { s with running := false }
  | Event.keyDown k down _ =>
      let s1 := if k = SDLK_ESCAPE ∧ down = true then { s with running := false } else s
      if k = SDLK_SPACE ∧ down = true then applyFlip s1 else s1
  | Event.keyUp _ _ => s
  | Event.other => s

/-- The horizontal screen clamp (main.cpp lines 212-214): two sequential
conditional assignments on player.x. -/
def clampX (x w : ℚ) : ℚ :=
  let x1 := if x < 0 then (0 : ℚ) else x
  if x1 + w > screenW then screenW - w else x1

/-- Everything the loop body reads from the outside on one frame: the
polled event queue, the keyboard snapshot, and SDL_GetTicks. -/
structure FrameInput where
  events : List Event
  kb : Keyboard
  nowTicks : Nat
deriving Repr

/-- One full iteration of the main loop body (main.cpp lines 108-214),
excluding rendering, which reads the state but never writes it. -/
def stepFrame (s : GameState) (inp : FrameInput) : GameState :=
  let s := inp.events.foldl processEvent s
  let s := { s with vx := computeVx inp.kb }
  let dt := computeDt s.lastTicks inp.nowTicks
  let s := { s with lastTicks := inp.nowTicks }
  let s := { s with playerAngle := animateAngle s.playerAngle s.targetAngle dt }
  let s := { s with vy := s.vy + gravity * s.gravityDir * dt }
  let oldX := s.player.x
  let oldY := s.player.y
  let s := { s with player := { s.player with
               x := s.player.x + s.vx * dt,
               y := s.player.y + s.vy * dt } }
  let rb := resolveWalls oldX oldY { rect := s.player, vx := s.vx, vy := s.vy } s.walls
  let s := { s with player := rb.rect, vx := rb.vx, vy := rb.vy }
  { s with player := { s.player with x := clampX s.player.x s.player.w } }

/-- The loop body of the vx-keeping variant program: identical to stepFrame
except that the horizontal collision branch does not zero vx. -/
def stepFrameKeepVx (s : GameState) (inp : FrameInput) : GameState :=
  let s := inp.events.foldl processEvent s
  let s := { s with vx := computeVx inp.kb }
  let dt := computeDt s.lastTicks inp.nowTicks
  let s := { s with lastTicks := inp.nowTicks }
  let s := { s with playerAngle := animateAngle s.playerAngle s.targetAngle dt }
  let s := { s with vy := s.vy + gravity * s.gravityDir * dt }
  let oldX := s.player.x
  let oldY := s.player.y
  let s := { s with player := { s.player with
               x := s.player.x + s.vx * dt,
               y := s.player.y + s.vy * dt } }
  let rb := resolveWallsKeepVx oldX oldY { rect := s.player, vx := s.vx, vy := s.vy } s.walls
  let s := { s with player := rb.rect, vx := rb.vx, vy := rb.vy }
  { s with player := { s.player with x := clampX s.player.x s.player.w } }

/-- tile width of the wall rows, main.cpp line 86. -/
def tileW : ℚ := 64

/-- tile height of the wall rows, main.cpp line 87. -/
def tileH : ℚ := 40

/-- The x coordinates produced by one wall-row loop
`for (x = start; x < 800; x += tileW)` (main.cpp lines 90 and 95); the fuel
strictly dominates the number of iterations, so the loop guard decides
termination. -/
def wallRowXs (x : ℚ) : Nat → List ℚ
  | 0 => []
  | n + 1 => if x < screenW then x :: wallRowXs (x + tileW) n else []

/-- The wall list built before the loop (main.cpp lines 85-101): floor row,
ceiling row, two platforms. -/
def mainWalls : List FRect :=
  ((wallRowXs 0 20).map fun x => FRect.mk x (600 - tileH) tileW tileH) ++
  ((wallRowXs 0 20).map fun x => FRect.mk x 0 tileW tileH) ++
  [FRect.mk 200 (600 - 160) 128 32, FRect.mk 500 (600 - 260) 128 32]

/-- The state at entry of the main loop (main.cpp lines 65-104), taking the
initial SDL_GetTicks call to return t0. -/
def initState (t0 : Nat) : GameState :=
  { player := FRect.mk 380 520 40 60
    vx := 0
    vy := 0
    gravityDir := 1
    playerAngle := 0
    targetAngle := 0
    lastTicks := t0
    running := true
    walls := mainWalls }

/-- Trace of the simulation: state after n frames, frame k reading its
input from ins k. -/
def runTrace (s : GameState) (ins : Nat → FrameInput) : Nat → GameState
  | 0 => s
  | n + 1 => stepFrame (runTrace s ins n) (ins n)

/-- States visited when feeding a list of frame inputs, frame by frame. -/
def runFrames (s : GameState) : List FrameInput → List GameState
  | [] => []
  | i :: is =>
      let s1 := stepFrame s i
      s1 :: runFrames s1 is

/-- Same, for the vx-keeping variant program. -/
def runFramesKeepVx (s : GameState) : List FrameInput → List GameState
  | [] => []
  | i :: is =>
      let s1 := stepFrameKeepVx s i
      s1 :: runFramesKeepVx s1 is

/-- An event is a flip trigger iff the handler reacts to it with a gravity
flip: a key-down event for the space key with the down flag set, with no
condition on the key-repeat flag (main.cpp line 118). -/
def isFlipTrigger (e : Event) : Bool :=
  match e with
  | Event.keyDown k down _ => decide (k = SDLK_SPACE) && down
  | _ => false

/-- Number of flip triggers in an event queue. -/
def flipTriggerCount (es : List Event) : Nat :=
  es.countP isFlipTrigger

/-- The event queue SDL delivers for one physical press of the space key
held long enough to generate n key-repeat events: the initial
down-transition, then n repeated key-down events (SDL3 key repeat delivers
these with down set and the repeat flag set), then the release. -/
def heldSpacePress (n : Nat) : List Event :=
  Event.keyDown SDLK_SPACE true false ::
    (List.replicate n (Event.keyDown SDLK_SPACE true true) ++
      [Event.keyUp SDLK_SPACE false])

-- Helper lemmas ------------------------------------------------------------

-- A single wall resolution never changes the width or height of the player.
lemma resolveWall_preserves_dims (o1 o2 : ℚ) (b : Body) (w : FRect) :
    (resolveWall o1 o2 b w).rect.w = b.rect.w ∧
    (resolveWall o1 o2 b w).rect.h = b.rect.h := by
  obtain ⟨⟨bx, by_, bw, bh⟩, bvx, bvy⟩ := b
  simp only [resolveWall]
  split_ifs <;> exact ⟨rfl, rfl⟩

-- Neither does the whole collision loop.
lemma resolveWalls_preserves_dims (o1 o2 : ℚ) :
    ∀ (ws : List FRect) (b : Body),
      (resolveWalls o1 o2 b ws).rect.w = b.rect.w ∧
      (resolveWalls o1 o2 b ws).rect.h = b.rect.h := by
  intro ws
  induction ws with
  | nil => intro b; exact ⟨rfl, rfl⟩
  | cons w ws ih =>
      intro b
      have h1 := resolveWall_preserves_dims o1 o2 b w
      have h2 := ih (resolveWall o1 o2 b w)
      simp only [resolveWalls, List.foldl_cons] at h2 ⊢
      exact ⟨h2.1.trans h1.1, h2.2.trans h1.2⟩

end FlipMan

namespace FlipMan

/-- C1: for an intersecting wall, the resolver acts on the vertical axis
exactly when minVert < minHoriz, where minHoriz is the least of the two
directed horizontal overlaps and minVert the least of the two vertical
ones: in that case the horizontal position and vx are untouched and vy is
zeroed whenever there was vertical movement; in every other case, ties
included, the vertical position and vy are untouched, the horizontal snap
applies, and vx is zeroed. -/
theorem resolveWall_axis_by_least_penetration
    (oldX oldY : ℚ) (b : Body) (w : FRect)
    (hInt : hasRectIntersectionFloat b.rect w = true) :
    (min (b.rect.y + b.rect.h - w.y) (w.y + w.h - b.rect.y) <
        min (b.rect.x + b.rect.w - w.x) (w.x + w.w - b.rect.x) →
      (resolveWall oldX oldY b w).rect.x = b.rect.x ∧
      (resolveWall oldX oldY b w).vx = b.vx ∧
      (b.rect.y ≠ oldY → (resolveWall oldX oldY b w).vy = 0)) ∧
    (¬ min (b.rect.y + b.rect.h - w.y) (w.y + w.h - b.rect.y) <
        min (b.rect.x + b.rect.w - w.x) (w.x + w.w - b.rect.x) →
      (resolveWall oldX oldY b w).rect.y = b.rect.y ∧
      (resolveWall oldX oldY b w).vy = b.vy ∧
      (resolveWall oldX oldY b w).vx = 0) := by
  obtain ⟨⟨bx, by_, bw, bh⟩, bvx, bvy⟩ := b
  simp only [resolveWall, hInt, if_true] at *
  constructor
  · intro hv
    rw [if_pos hv]
    rcases lt_trichotomy by_ oldY with hy | hy | hy
    · rw [if_neg (not_lt.mpr hy.le), if_pos hy]
      exact ⟨rfl, rfl, fun _ => rfl⟩
    · rw [if_neg (by simp [hy]), if_neg (by simp [hy])]
      exact ⟨rfl, rfl, fun hne => absurd hy hne⟩
    · rw [if_pos hy]
      exact ⟨rfl, rfl, fun _ => rfl⟩
  · intro hv
    rw [if_neg hv]
    rcases lt_trichotomy bx oldX with hx | hx | hx
    · rw [if_neg (not_lt.mpr hx.le), if_pos hx]
      exact ⟨rfl, rfl, rfl⟩
    · rw [if_neg (by simp [hx]), if_neg (by simp [hx])]
      exact ⟨rfl, rfl, rfl⟩
    · rw [if_pos hx]
      exact ⟨rfl, rfl, rfl⟩

/-- C1 witness: the spec example pair, player rect (10,10,10,10) against
wall (15,15,10,10), is an exact tie (minVert = minHoriz = 5), so the
horizontal branch is selected. -/
theorem resolveWall_axis_by_least_penetration_witness :
    hasRectIntersectionFloat (FRect.mk 10 10 10 10) (FRect.mk 15 15 10 10) = true ∧
    ((min ((10:ℚ) + 10 - 15) (15 + 10 - 10) < min ((10:ℚ) + 10 - 15) (15 + 10 - 10) →
        (resolveWall 9 10 (Body.mk (FRect.mk 10 10 10 10) 240 0) (FRect.mk 15 15 10 10)).rect.x = 10 ∧
        (resolveWall 9 10 (Body.mk (FRect.mk 10 10 10 10) 240 0) (FRect.mk 15 15 10 10)).vx = 240 ∧
        ((10:ℚ) ≠ 10 → (resolveWall 9 10 (Body.mk (FRect.mk 10 10 10 10) 240 0) (FRect.mk 15 15 10 10)).vy = 0)) ∧
      (¬ min ((10:ℚ) + 10 - 15) (15 + 10 - 10) < min ((10:ℚ) + 10 - 15) (15 + 10 - 10) →
        (resolveWall 9 10 (Body.mk (FRect.mk 10 10 10 10) 240 0) (FRect.mk 15 15 10 10)).rect.y = 10 ∧
        (resolveWall 9 10 (Body.mk (FRect.mk 10 10 10 10) 240 0) (FRect.mk 15 15 10 10)).vy = 0 ∧
        (resolveWall 9 10 (Body.mk (FRect.mk 10 10 10 10) 240 0) (FRect.mk 15 15 10 10)).vx = 0)) := by
  refine ⟨by norm_num [hasRectIntersectionFloat], ?_⟩
  have h := resolveWall_axis_by_least_penetration 9 10
    (Body.mk (FRect.mk 10 10 10 10) 240 0) (FRect.mk 15 15 10 10)
    (by norm_num [hasRectIntersectionFloat])
  exact h

/-- C2: when the player intersects a wall, the vertical penetration is
strictly the smaller one, and the player moved down this frame, the
resolution lands the player on the wall top (y becomes wallTop minus the
player height) and zeroes vy; moving up, it snaps y to wallBottom and
zeroes vy. -/
theorem resolveWall_vertical_snap
    (oldX oldY : ℚ) (b : Body) (w : FRect)
    (hInt : hasRectIntersectionFloat b.rect w = true)
    (hv : min (b.rect.y + b.rect.h - w.y) (w.y + w.h - b.rect.y) <
          min (b.rect.x + b.rect.w - w.x) (w.x + w.w - b.rect.x)) :
    (b.rect.y > oldY →
      (resolveWall oldX oldY b w).rect.y = w.y - b.rect.h ∧
      (resolveWall oldX oldY b w).vy = 0) ∧
    (b.rect.y < oldY →
      (resolveWall oldX oldY b w).rect.y = w.y + w.h ∧
      (resolveWall oldX oldY b w).vy = 0) := by
  obtain ⟨⟨bx, by_, bw, bh⟩, bvx, bvy⟩ := b
  simp only [resolveWall, hInt, if_true] at *
  rw [if_pos hv]
  constructor
  · intro hdown
    rw [if_pos hdown]
    exact ⟨rfl, rfl⟩
  · intro hup
    rw [if_neg (not_lt.mpr hup.le), if_pos hup]
    exact ⟨rfl, rfl⟩

/-- C2 witness: a falling player, rect (380,525,40,60) coming from
oldY = 520, against the floor tile (384,560,64,40): vertical penetration
25 beats horizontal 36, the player lands at y = 500 and vy is zeroed. -/
theorem resolveWall_vertical_snap_witness :
    hasRectIntersectionFloat (FRect.mk 380 525 40 60) (FRect.mk 384 560 64 40) = true ∧
    min ((525:ℚ) + 60 - 560) (560 + 40 - 525) < min ((380:ℚ) + 40 - 384) (384 + 64 - 380) ∧
    (((525:ℚ) > 520 →
      (resolveWall 380 520 (Body.mk (FRect.mk 380 525 40 60) 0 90) (FRect.mk 384 560 64 40)).rect.y = 560 - 60 ∧
      (resolveWall 380 520 (Body.mk (FRect.mk 380 525 40 60) 0 90) (FRect.mk 384 560 64 40)).vy = 0) ∧
     ((525:ℚ) < 520 →
      (resolveWall 380 520 (Body.mk (FRect.mk 380 525 40 60) 0 90) (FRect.mk 384 560 64 40)).rect.y = 560 + 40 ∧
      (resolveWall 380 520 (Body.mk (FRect.mk 380 525 40 60) 0 90) (FRect.mk 384 560 64 40)).vy = 0)) := by
  refine ⟨by norm_num [hasRectIntersectionFloat], by norm_num, ?_⟩
  exact resolveWall_vertical_snap 380 520
    (Body.mk (FRect.mk 380 525 40 60) 0 90) (FRect.mk 384 560 64 40)
    (by norm_num [hasRectIntersectionFloat]) (by norm_num)

/-- C3 counterexample: the claim fails on the horizontal branch.  The
player rect (380,520,40,60) overlapping the floor tile (320,560,64,40)
with zero movement (oldX = x, oldY = y) resolves horizontally (minVert 20,
minHoriz 4); the position is indeed left unchanged, but the resolution
still sets vx to 0, changing it from 240. -/
theorem resolveWall_silent_noop_cex :
    hasRectIntersectionFloat (FRect.mk 380 520 40 60) (FRect.mk 320 560 64 40) = true ∧
    (resolveWall 380 520 (Body.mk (FRect.mk 380 520 40 60) 240 0) (FRect.mk 320 560 64 40)).rect
      = FRect.mk 380 520 40 60 ∧
    (resolveWall 380 520 (Body.mk (FRect.mk 380 520 40 60) 240 0) (FRect.mk 320 560 64 40)).vx ≠ 240 := by
  refine ⟨by norm_num [hasRectIntersectionFloat], ?_, ?_⟩
  · norm_num [resolveWall, hasRectIntersectionFloat]
  · norm_num [resolveWall, hasRectIntersectionFloat]

/-- C3 amended: with no movement along the resolved axis the resolution
leaves the position and vy unchanged; a vertical resolution is then a full
no-op, but a horizontal resolution still unconditionally zeroes vx. -/
theorem resolveWall_noop_except_vx
    (oldX oldY : ℚ) (b : Body) (w : FRect)
    (hInt : hasRectIntersectionFloat b.rect w = true) :
    (min (b.rect.y + b.rect.h - w.y) (w.y + w.h - b.rect.y) <
        min (b.rect.x + b.rect.w - w.x) (w.x + w.w - b.rect.x) →
      b.rect.y = oldY → resolveWall oldX oldY b w = b) ∧
    (¬ min (b.rect.y + b.rect.h - w.y) (w.y + w.h - b.rect.y) <
        min (b.rect.x + b.rect.w - w.x) (w.x + w.w - b.rect.x) →
      b.rect.x = oldX →
        (resolveWall oldX oldY b w).rect = b.rect ∧
        (resolveWall oldX oldY b w).vy = b.vy ∧
        (resolveWall oldX oldY b w).vx = 0) := by
  obtain ⟨⟨bx, by_, bw, bh⟩, bvx, bvy⟩ := b
  simp only [resolveWall, hInt, if_true] at *
  constructor
  · intro hv hy
    rw [if_pos hv, if_neg (by simp [hy]), if_neg (by simp [hy])]
  · intro hv hx
    rw [if_neg hv, if_neg (by simp [hx]), if_neg (by simp [hx])]
    exact ⟨rfl, rfl, rfl⟩

/-- C3 amended witness: the same motionless overlap as the counterexample
instantiates both branches of the amended statement. -/
theorem resolveWall_noop_except_vx_witness :
    hasRectIntersectionFloat (FRect.mk 380 520 40 60) (FRect.mk 320 560 64 40) = true ∧
    ((min ((520:ℚ) + 60 - 560) (560 + 40 - 520) < min ((380:ℚ) + 40 - 320) (320 + 64 - 380) →
        (520:ℚ) = 520 →
        resolveWall 380 520 (Body.mk (FRect.mk 380 520 40 60) 240 0) (FRect.mk 320 560 64 40)
          = Body.mk (FRect.mk 380 520 40 60) 240 0) ∧
     (¬ min ((520:ℚ) + 60 - 560) (560 + 40 - 520) < min ((380:ℚ) + 40 - 320) (320 + 64 - 380) →
        (380:ℚ) = 380 →
        (resolveWall 380 520 (Body.mk (FRect.mk 380 520 40 60) 240 0) (FRect.mk 320 560 64 40)).rect
          = FRect.mk 380 520 40 60 ∧
        (resolveWall 380 520 (Body.mk (FRect.mk 380 520 40 60) 240 0) (FRect.mk 320 560 64 40)).vy = 0 ∧
        (resolveWall 380 520 (Body.mk (FRect.mk 380 520 40 60) 240 0) (FRect.mk 320 560 64 40)).vx = 0)) := by
  refine ⟨by norm_num [hasRectIntersectionFloat], ?_⟩
  exact resolveWall_noop_except_vx 380 520
    (Body.mk (FRect.mk 380 520 40 60) 240 0) (FRect.mk 320 560 64 40)
    (by norm_num [hasRectIntersectionFloat])

-- The event handler flips gravity exactly on the flip-trigger events.
lemma processEvent_gravityDir (s : GameState) (e : Event) :
    (processEvent s e).gravityDir =
      if isFlipTrigger e = true then s.gravityDir * (-1) else s.gravityDir := by
  cases e with
  | quit => simp [processEvent, isFlipTrigger]
  | keyUp k down => simp [processEvent, isFlipTrigger]
  | other => simp [processEvent, isFlipTrigger]
  | keyDown k down r =>
      simp only [processEvent, isFlipTrigger, Bool.and_eq_true, decide_eq_true_eq]
      by_cases hsp : k = SDLK_SPACE ∧ down = true
      · rw [if_pos hsp, if_pos hsp]
        by_cases hesc : k = SDLK_ESCAPE ∧ down = true
        · rw [if_pos hesc]; rfl
        · rw [if_neg hesc]; rfl
      · rw [if_neg hsp, if_neg hsp]
        by_cases hesc : k = SDLK_ESCAPE ∧ down = true
        · rw [if_pos hesc]
        · rw [if_neg hesc]

-- Folding the event queue multiplies gravityDir by one -1 factor per
-- flip-trigger event.
lemma foldl_processEvent_gravityDir :
    ∀ (es : List Event) (s : GameState),
      (es.foldl processEvent s).gravityDir =
        s.gravityDir * (-1) ^ flipTriggerCount es := by
  intro es
  induction es with
  | nil => intro s; simp [flipTriggerCount]
  | cons e es ih =>
      intro s
      rw [List.foldl_cons, ih (processEvent s e), processEvent_gravityDir]
      simp only [flipTriggerCount, List.countP_cons]
      by_cases h : isFlipTrigger e = true
      · rw [if_pos h, h, if_pos rfl, pow_succ]
        ring
      · rw [if_neg h]
        have hb : isFlipTrigger e = false := by
          cases hval : isFlipTrigger e
          · rfl
          · exact absurd hval h
        rw [hb]
        simp

-- Every key-repeat space key-down event counts as a flip trigger.
lemma countP_isFlipTrigger_replicate (n : Nat) :
    List.countP isFlipTrigger
      (List.replicate n (Event.keyDown SDLK_SPACE true true)) = n := by
  induction n with
  | zero => rfl
  | succ n ih =>
      rw [List.replicate_succ, List.countP_cons, ih]
      norm_num [isFlipTrigger, SDLK_SPACE]

-- A held press with n key-repeat events delivers n + 1 flip triggers.
lemma flipTriggerCount_heldSpacePress (n : Nat) :
    flipTriggerCount (heldSpacePress n) = n + 1 := by
  unfold flipTriggerCount heldSpacePress
  rw [List.countP_cons, List.countP_append, countP_isFlipTrigger_replicate]
  norm_num [isFlipTrigger, SDLK_SPACE, List.countP_cons]

/-- C4 counterexample: starting from the initial state (gravityDir = 1),
the event queue of a single physical press of space held long enough for
one key-repeat event produces two flips, returning gravityDir to 1,
whereas exactly one flip would leave it at -1 and 1 is not -1. -/
theorem heldPress_double_flip_cex :
    ((heldSpacePress 1).foldl processEvent (initState 0)).gravityDir = 1 ∧
    (initState 0).gravityDir = 1 ∧
    flipTriggerCount (heldSpacePress 1) = 2 ∧
    (1 : ℚ) ≠ -1 := by
  refine ⟨?_, rfl, ?_, by norm_num⟩
  · norm_num [heldSpacePress, processEvent, applyFlip, initState,
      SDLK_SPACE, SDLK_ESCAPE, List.replicate]
  · norm_num [heldSpacePress, flipTriggerCount, isFlipTrigger,
      List.countP_cons, List.countP_append, SDLK_SPACE, List.replicate]

/-- C4 amended: the flip is triggered once per delivered space key-down
event, the key-repeat flag being ignored: folding any event queue
multiplies gravityDir by -1 once per such event, and the queue of a single
physical press held through n key-repeat key-down events contains n + 1
triggers, so one press flips exactly once only when no repeat events are
delivered before the release. -/
theorem flip_per_keydown_event (es : List Event) (s : GameState) (n : Nat) :
    (es.foldl processEvent s).gravityDir =
      s.gravityDir * (-1) ^ flipTriggerCount es ∧
    flipTriggerCount (heldSpacePress n) = n + 1 :=
  ⟨foldl_processEvent_gravityDir es s, flipTriggerCount_heldSpacePress n⟩

/-- C5: the flip transition negates dir, keeps it in the two-element set
of 1 and -1, recomputes targetAngle as 0 for dir 1 and 180 for dir -1,
and zeroes the vertical velocity. -/
theorem flip_transition (s : GameState)
    (h : s.gravityDir = 1 ∨ s.gravityDir = -1) :
    (applyFlip s).gravityDir = -s.gravityDir ∧
    ((applyFlip s).gravityDir = 1 ∨ (applyFlip s).gravityDir = -1) ∧
    ((applyFlip s).gravityDir = 1 → (applyFlip s).targetAngle = 0) ∧
    ((applyFlip s).gravityDir = -1 → (applyFlip s).targetAngle = 180) ∧
    (applyFlip s).vy = 0 := by
  rcases h with h | h <;>
    simp only [applyFlip, h] <;> norm_num

/-- C5 witness: the flip transition at the initial state, where dir is 1. -/
theorem flip_transition_witness :
    ((initState 0).gravityDir = 1 ∨ (initState 0).gravityDir = -1) ∧
    ((applyFlip (initState 0)).gravityDir = -(initState 0).gravityDir ∧
     ((applyFlip (initState 0)).gravityDir = 1 ∨ (applyFlip (initState 0)).gravityDir = -1) ∧
     ((applyFlip (initState 0)).gravityDir = 1 → (applyFlip (initState 0)).targetAngle = 0) ∧
     ((applyFlip (initState 0)).gravityDir = -1 → (applyFlip (initState 0)).targetAngle = 180) ∧
     (applyFlip (initState 0)).vy = 0) :=
  ⟨Or.inl rfl, flip_transition (initState 0) (Or.inl rfl)⟩

/-- C6: for positive dt the angle update strictly reduces the distance to
the target and never crosses it, an angle equal to its target stays equal,
and with the target in the set of 0 and 180 the angle stays within the
interval from 0 to 180. -/
theorem angle_convergence (angle target dt : ℚ) (hdt : 0 < dt) :
    (angle ≠ target →
      |animateAngle angle target dt - target| < |angle - target| ∧
      (angle < target → animateAngle angle target dt ≤ target) ∧
      (target < angle → target ≤ animateAngle angle target dt)) ∧
    (angle = target → animateAngle angle target dt = angle) ∧
    (0 ≤ angle → angle ≤ 180 → (target = 0 ∨ target = 180) →
      0 ≤ animateAngle angle target dt ∧ animateAngle angle target dt ≤ 180) := by
  have hstep : 0 < angleSpeed * dt := by
    have : (0:ℚ) < angleSpeed := by norm_num [angleSpeed]
    exact mul_pos this hdt
  refine ⟨?_, ?_, ?_⟩
  · intro hne
    rcases lt_trichotomy angle target with hlt | heq | hgt
    · rw [animateAngle, if_pos hlt]
      by_cases hover : angle + angleSpeed * dt > target
      · rw [if_pos hover]
        refine ⟨?_, fun _ => le_refl _, fun h => absurd hlt (not_lt.mpr h.le)⟩
        rw [sub_self, abs_zero]
        exact abs_pos.mpr (sub_ne_zero.mpr hne)
      · rw [if_neg hover]
        push_neg at hover
        refine ⟨?_, fun _ => hover, fun h => absurd hlt (not_lt.mpr h.le)⟩
        rw [abs_of_nonpos (by linarith), abs_of_nonpos (by linarith)]
        linarith
    · exact absurd heq hne
    · rw [animateAngle, if_neg (not_lt.mpr hgt.le), if_pos hgt]
      by_cases hover : angle - angleSpeed * dt < target
      · rw [if_pos hover]
        refine ⟨?_, fun h => absurd hgt (not_lt.mpr h.le), fun _ => le_refl _⟩
        rw [sub_self, abs_zero]
        exact abs_pos.mpr (sub_ne_zero.mpr hne)
      · rw [if_neg hover]
        push_neg at hover
        refine ⟨?_, fun h => absurd hgt (not_lt.mpr h.le), fun _ => hover⟩
        rw [abs_of_nonneg (by linarith), abs_of_nonneg (by linarith)]
        linarith
  · intro heq
    rw [animateAngle, if_neg (by simp [heq]), if_neg (by simp [heq])]
  · intro h0 h180 htgt
    rcases lt_trichotomy angle target with hlt | heq | hgt
    · rw [animateAngle, if_pos hlt]
      have ht180 : target = 180 := by
        rcases htgt with h | h
        · exact absurd (h ▸ hlt) (not_lt.mpr h0)
        · exact h
      by_cases hover : angle + angleSpeed * dt > target
      · rw [if_pos hover]; constructor <;> linarith
      · rw [if_neg hover]; push_neg at hover; constructor <;> linarith
    · rw [animateAngle, if_neg (by simp [heq]), if_neg (by simp [heq])]
      exact ⟨h0, h180⟩
    · rw [animateAngle, if_neg (not_lt.mpr hgt.le), if_pos hgt]
      have ht0 : target = 0 := by
        rcases htgt with h | h
        · exact h
        · exact absurd (h ▸ hgt) (not_lt.mpr h180)
      by_cases hover : angle - angleSpeed * dt < target
      · rw [if_pos hover]; constructor <;> linarith
      · rw [if_neg hover]; push_neg at hover; constructor <;> linarith

/-- C6 witness: the angle update at angle 90, target 180, dt 1/100. -/
theorem angle_convergence_witness :
    (0:ℚ) < 1/100 ∧
    (((90:ℚ) ≠ 180 →
      |animateAngle 90 180 (1/100) - 180| < |(90:ℚ) - 180| ∧
      ((90:ℚ) < 180 → animateAngle 90 180 (1/100) ≤ 180) ∧
      ((180:ℚ) < 90 → 180 ≤ animateAngle 90 180 (1/100))) ∧
     ((90:ℚ) = 180 → animateAngle 90 180 (1/100) = 90) ∧
     ((0:ℚ) ≤ 90 → (90:ℚ) ≤ 180 → ((180:ℚ) = 0 ∨ (180:ℚ) = 180) →
      0 ≤ animateAngle 90 180 (1/100) ∧ animateAngle 90 180 (1/100) ≤ 180)) :=
  ⟨by norm_num, angle_convergence 90 180 (1/100) (by norm_num)⟩

-- Event handling never touches the player rectangle or the wall list.
lemma processEvent_player_walls (s : GameState) (e : Event) :
    (processEvent s e).player = s.player ∧ (processEvent s e).walls = s.walls := by
  cases e with
  | quit => exact ⟨rfl, rfl⟩
  | keyUp k down => exact ⟨rfl, rfl⟩
  | other => exact ⟨rfl, rfl⟩
  | keyDown k down r =>
      simp only [processEvent]
      split_ifs <;> exact ⟨rfl, rfl⟩

lemma foldl_processEvent_player_walls :
    ∀ (es : List Event) (s : GameState),
      (es.foldl processEvent s).player = s.player ∧
      (es.foldl processEvent s).walls = s.walls := by
  intro es
  induction es with
  | nil => intro s; exact ⟨rfl, rfl⟩
  | cons e es ih =>
      intro s
      have h1 := processEvent_player_walls s e
      have h2 := ih (processEvent s e)
      rw [List.foldl_cons]
      exact ⟨h2.1.trans h1.1, h2.2.trans h1.2⟩

-- The clamp lands in the closed interval whenever the width fits on
-- screen.
lemma clampX_bounds (x w : ℚ) (h : w ≤ 800) :
    0 ≤ clampX x w ∧ clampX x w ≤ 800 - w := by
  simp only [clampX, screenW]
  split_ifs <;> constructor <;> linarith

-- The frame step ends by clamping whatever x the collision pass produced,
-- with the width it entered the frame with.
lemma stepFrame_player_w (s : GameState) (inp : FrameInput) :
    (stepFrame s inp).player.w = s.player.w := by
  simp only [stepFrame]
  rw [(resolveWalls_preserves_dims _ _ _ _).1]
  exact (foldl_processEvent_player_walls inp.events s).1 ▸ rfl

lemma stepFrame_lastTicks (s : GameState) (inp : FrameInput) :
    (stepFrame s inp).lastTicks = inp.nowTicks :=
  rfl

lemma stepFrame_walls (s : GameState) (inp : FrameInput) :
    (stepFrame s inp).walls = s.walls :=
  (foldl_processEvent_player_walls inp.events s).2

/-- C7: after a full frame step, provided the player width fits on the
800-wide screen, the final player.x lies in the interval from 0 to
800 minus the player width, and the width is unchanged; this holds for
any wall list and any collision outcome. -/
theorem stepFrame_clamps_x (s : GameState) (inp : FrameInput)
    (h : s.player.w ≤ 800) :
    0 ≤ (stepFrame s inp).player.x ∧
    (stepFrame s inp).player.x ≤ 800 - s.player.w ∧
    (stepFrame s inp).player.w = s.player.w := by
  have hw := stepFrame_player_w s inp
  have hx : ∃ a w2, (stepFrame s inp).player.x = clampX a w2 ∧ w2 = s.player.w := by
    simp only [stepFrame]
    refine ⟨_, _, rfl, ?_⟩
    rw [(resolveWalls_preserves_dims _ _ _ _).1]
    exact (foldl_processEvent_player_walls inp.events s).1 ▸ rfl
  obtain ⟨a, w2, ha, hw2⟩ := hx
  rw [ha, hw2]
  exact ⟨(clampX_bounds a _ h).1, (clampX_bounds a _ h).2, hw⟩

/-- C7 witness: one frame from the initial state with no events, no keys
held, and an unchanged tick counter. -/
theorem stepFrame_clamps_x_witness :
    (initState 0).player.w ≤ 800 ∧
    (0 ≤ (stepFrame (initState 0) (FrameInput.mk [] (Keyboard.mk false false false false) 0)).player.x ∧
     (stepFrame (initState 0) (FrameInput.mk [] (Keyboard.mk false false false false) 0)).player.x
       ≤ 800 - (initState 0).player.w ∧
     (stepFrame (initState 0) (FrameInput.mk [] (Keyboard.mk false false false false) 0)).player.w
       = (initState 0).player.w) :=
  ⟨by norm_num [initState],
   stepFrame_clamps_x (initState 0)
     (FrameInput.mk [] (Keyboard.mk false false false false) 0)
     (by norm_num [initState])⟩

/-- C8: the clock step equals the tick delta over 1000 capped at 1/20 of a
second, a raw delta of 500 ms caps to exactly 1/20, and the frame step
stores the new tick count as lastTicks. -/
theorem clock_dt_clamp (last now : Nat) (s : GameState) (inp : FrameInput)
    (h : last ≤ now) :
    computeDt last now = min (((now - last : Nat) : ℚ) / 1000) (1/20) ∧
    computeDt last (last + 500) = 1/20 ∧
    (stepFrame s inp).lastTicks = inp.nowTicks := by
  refine ⟨?_, ?_, stepFrame_lastTicks s inp⟩
  · simp only [computeDt]
    rcases le_or_lt (((now - last : Nat) : ℚ) / 1000) (1/20) with hle | hlt
    · rw [if_neg (not_lt.mpr hle), min_eq_left hle]
    · rw [if_pos hlt, min_eq_right hlt.le]
  · norm_num [computeDt, Nat.add_sub_cancel_left]

/-- C8 witness: lastTicks 0, nowTicks 7, and an arbitrary frame. -/
theorem clock_dt_clamp_witness :
    (0 : Nat) ≤ 7 ∧
    (computeDt 0 7 = min (((7 - 0 : Nat) : ℚ) / 1000) (1/20) ∧
     computeDt 0 (0 + 500) = 1/20 ∧
     (stepFrame (initState 0) (FrameInput.mk [] (Keyboard.mk false false false false) 3)).lastTicks
       = (FrameInput.mk [] (Keyboard.mk false false false false) 3).nowTicks) :=
  ⟨by decide,
   clock_dt_clamp 0 7 (initState 0)
     (FrameInput.mk [] (Keyboard.mk false false false false) 3) (by decide)⟩

-- Agreement on every state component except vx: the relation preserved
-- between the original program and the vx-keeping variant.
def AgreeExceptVx (s t : GameState) : Prop :=
  s.player = t.player ∧ s.vy = t.vy ∧ s.gravityDir = t.gravityDir ∧
  s.playerAngle = t.playerAngle ∧ s.targetAngle = t.targetAngle ∧
  s.lastTicks = t.lastTicks ∧ s.running = t.running ∧ s.walls = t.walls

lemma agreeExceptVx_refl (s : GameState) : AgreeExceptVx s s :=
  ⟨rfl, rfl, rfl, rfl, rfl, rfl, rfl, rfl⟩

lemma processEvent_agree {s t : GameState} (e : Event)
    (h : AgreeExceptVx s t) :
    AgreeExceptVx (processEvent s e) (processEvent t e) := by
  obtain ⟨p, svx, svy, sg, spa, sta, slt, sr, sw⟩ := s
  obtain ⟨p2, tvx, tvy, tg, tpa, tta, tlt, tr, tw⟩ := t
  obtain ⟨h1, h2, h3, h4, h5, h6, h7, h8⟩ := h
  simp only at h1 h2 h3 h4 h5 h6 h7 h8
  subst h1 h2 h3 h4 h5 h6 h7 h8
  cases e with
  | quit => exact ⟨rfl, rfl, rfl, rfl, rfl, rfl, rfl, rfl⟩
  | keyUp k down => exact ⟨rfl, rfl, rfl, rfl, rfl, rfl, rfl, rfl⟩
  | other => exact ⟨rfl, rfl, rfl, rfl, rfl, rfl, rfl, rfl⟩
  | keyDown k down r =>
      simp only [processEvent, AgreeExceptVx]
      split_ifs <;> simp [applyFlip]

lemma foldl_processEvent_agree :
    ∀ (es : List Event) {s t : GameState}, AgreeExceptVx s t →
      AgreeExceptVx (es.foldl processEvent s) (es.foldl processEvent t) := by
  intro es
  induction es with
  | nil => intro s t h; exact h
  | cons e es ih =>
      intro s t h
      rw [List.foldl_cons, List.foldl_cons]
      exact ih (processEvent_agree e h)

-- With equal rectangles and vertical velocities going in, one wall
-- resolution produces equal rectangles and vertical velocities in the
-- original and the vx-keeping variant.
lemma resolveWall_agreeKeep (o1 o2 : ℚ) (w : FRect) {b c : Body}
    (hr : b.rect = c.rect) (hv : b.vy = c.vy) :
    (resolveWall o1 o2 b w).rect = (resolveWallKeepVx o1 o2 c w).rect ∧
    (resolveWall o1 o2 b w).vy = (resolveWallKeepVx o1 o2 c w).vy := by
  obtain ⟨br, bvx, bvy⟩ := b
  obtain ⟨cr, cvx, cvy⟩ := c
  simp only at hr hv
  subst hr hv
  simp only [resolveWall, resolveWallKeepVx]
  split_ifs <;> exact ⟨rfl, rfl⟩

lemma resolveWalls_agreeKeep (o1 o2 : ℚ) :
    ∀ (ws : List FRect) {b c : Body},
      b.rect = c.rect → b.vy = c.vy →
      (resolveWalls o1 o2 b ws).rect = (resolveWallsKeepVx o1 o2 c ws).rect ∧
      (resolveWalls o1 o2 b ws).vy = (resolveWallsKeepVx o1 o2 c ws).vy := by
  intro ws
  induction ws with
  | nil => intro b c hr hv; exact ⟨hr, hv⟩
  | cons w ws ih =>
      intro b c hr hv
      have h1 := resolveWall_agreeKeep o1 o2 w hr hv
      simp only [resolveWalls, resolveWallsKeepVx, List.foldl_cons] at ih ⊢
      exact ih h1.1 h1.2

-- Special case used below: the same body resolved by the original and by
-- the vx-keeping collision loop yields the same rectangle and vy.
lemma resolveWalls_keepVx_same (o1 o2 : ℚ) (ws : List FRect) (b : Body) :
    (resolveWalls o1 o2 b ws).rect = (resolveWallsKeepVx o1 o2 b ws).rect ∧
    (resolveWalls o1 o2 b ws).vy = (resolveWallsKeepVx o1 o2 b ws).vy :=
  resolveWalls_agreeKeep o1 o2 ws rfl rfl

-- One frame of the original program and one frame of the vx-keeping
-- variant, started in agreeing states, end in agreeing states.
lemma stepFrame_agree {s t : GameState} (inp : FrameInput)
    (h : AgreeExceptVx s t) :
    AgreeExceptVx (stepFrame s inp) (stepFrameKeepVx t inp) := by
  have hf := foldl_processEvent_agree inp.events h
  simp only [stepFrame, stepFrameKeepVx]
  generalize hA : List.foldl processEvent s inp.events = sA at hf ⊢
  generalize hB : List.foldl processEvent t inp.events = tA at hf ⊢
  obtain ⟨pA, vxA, vyA, gA, paA, taA, ltA, rA, wA⟩ := sA
  obtain ⟨pB, vxB, vyB, gB, paB, taB, ltB, rB, wB⟩ := tA
  obtain ⟨h1, h2, h3, h4, h5, h6, h7, h8⟩ := hf
  simp only at h1 h2 h3 h4 h5 h6 h7 h8
  subst h1 h2 h3 h4 h5 h6 h7 h8
  refine ⟨?_, ?_, rfl, rfl, rfl, rfl, rfl, rfl⟩
  · show FRect.mk _ _ _ _ = FRect.mk _ _ _ _
    rw [(resolveWalls_keepVx_same _ _ _ _).1]
  · exact (resolveWalls_keepVx_same _ _ _ _).2

/-- C9: zeroing vx in the horizontal collision branch is observably
inert: the original program and the variant that omits the vx-zeroing
assignment produce the same player rectangle on every frame of every run,
because vx is overwritten from the keyboard at the start of each frame
before it is used. -/
theorem omit_vx_zero_refines (s : GameState) (inputs : List FrameInput) :
    (runFrames s inputs).map (fun t => t.player) =
      (runFramesKeepVx s inputs).map (fun t => t.player) := by
  have key : ∀ (is : List FrameInput) {s t : GameState}, AgreeExceptVx s t →
      (runFrames s is).map (fun u => u.player) =
        (runFramesKeepVx t is).map (fun u => u.player) := by
    intro is
    induction is with
    | nil => intro s t _; rfl
    | cons i is ih =>
        intro s t h
        have hstep := stepFrame_agree i h
        simp only [runFrames, runFramesKeepVx, List.map_cons]
        rw [hstep.1, ih hstep]
  exact key inputs (agreeExceptVx_refl s)

/-- C10: the frame step is deterministic and walls are immutable: two
runs from the same state whose frame inputs agree on every frame consumed
produce identical states, and the wall list after any number of frames is
the initial wall list. -/
theorem stepFrame_deterministic (s : GameState)
    (ins1 ins2 : Nat → FrameInput) (n : Nat)
    (h : ∀ k, k < n → ins1 k = ins2 k) :
    runTrace s ins1 n = runTrace s ins2 n ∧
    (runTrace s ins1 n).walls = s.walls := by
  induction n with
  | zero => exact ⟨rfl, rfl⟩
  | succ n ih =>
      have hn := h n (Nat.lt_succ_self n)
      have ihh := ih (fun k hk => h k (Nat.lt_succ_of_lt hk))
      simp only [runTrace]
      rw [ihh.1, hn]
      refine ⟨rfl, ?_⟩
      rw [stepFrame_walls, ← ihh.1]
      exact ihh.2

/-- C10 witness: one frame, two input streams that agree on frame 0 and
differ afterwards. -/
theorem stepFrame_deterministic_witness :
    (∀ k, k < 1 →
      (fun _ => FrameInput.mk [] (Keyboard.mk false false false false) 4) k =
      (fun j => if j = 0
        then FrameInput.mk [] (Keyboard.mk false false false false) 4
        else FrameInput.mk [Event.quit] (Keyboard.mk true false false false) 9) k) ∧
    (runTrace (initState 0)
        (fun _ => FrameInput.mk [] (Keyboard.mk false false false false) 4) 1 =
      runTrace (initState 0)
        (fun j => if j = 0
          then FrameInput.mk [] (Keyboard.mk false false false false) 4
          else FrameInput.mk [Event.quit] (Keyboard.mk true false false false) 9) 1 ∧
     (runTrace (initState 0)
        (fun _ => FrameInput.mk [] (Keyboard.mk false false false false) 4) 1).walls =
       (initState 0).walls) :=
  ⟨fun k hk => by
      have hk0 : k = 0 := Nat.lt_one_iff.mp hk
      subst hk0
      rfl,
   stepFrame_deterministic (initState 0) _ _ 1
     (fun k hk => by
       have hk0 : k = 0 := Nat.lt_one_iff.mp hk
       subst hk0
       rfl)⟩

end FlipMan
